import Mathlib

/-!
Verification development for the wgkex broker (`wgkex/broker/app.py`).

The broker reconciles HTTP key-exchange requests and MQTT messages into
three in-memory stores: per-worker metrics (`worker_metrics`), per-(worker,
domain) endpoint data (`worker_data`) and per-broker liveness
(`broker_status`).  The Python source is embedded shallowly: dictionaries
become association lists, Python `int` becomes `Int`, MQTT payload bytes
become `String`, exceptions escaping a handler become `Except.error`, and
exceptions caught inside a handler become ordinary control flow.

Parts of the repository referenced by `app.py` but living in other modules
(`wgkex.broker.metrics`, `wgkex.common.mqtt`, `wgkex.common.utils`) are
modelled from the specification; each such definition carries a doc comment
saying so.
-/

set_option linter.unusedVariables false

/-- Association-list lookup: first entry whose key equals `k` (mirrors a
Python dict read, the insertion discipline below keeps keys unique). -/
def lookupA {α β : Type} [DecidableEq α] : List (α × β) → α → Option β
  | [], _ => none
  | (k, v) :: rest, key => if k = key then some v else lookupA rest key

/-- Association-list write: replace the first entry with key `k`, or append
a new entry (mirrors `d[k] = v` on a Python dict). -/
def insertA {α β : Type} [DecidableEq α] : List (α × β) → α → β → List (α × β)
  | [], key, v => [(key, v)]
  | (k, w) :: rest, key, v =>
      if k = key then (k, v) :: rest else (k, w) :: insertA rest key v

/-- Split a character list at every `'/'` (Python `str.split("/")`). -/
def splitSlashAux : List Char → List Char → List String
  | [], acc => [String.mk acc.reverse]
  | c :: rest, acc =>
      if c = '/' then String.mk acc.reverse :: splitSlashAux rest []
      else splitSlashAux rest (c :: acc)

/-- Join strings with `'/'` between them. -/
def joinSlash : List String → String
  | [] => ""
  | [x] => x
  | x :: xs => x ++ "/" ++ joinSlash xs

/-- Python `str.split("/", maxsplit)`: at most `maxsplit` splits, the
remainder (slashes included) becomes the last element. -/
def pySplitSlash (s : String) (maxsplit : Nat) : List String :=
  let parts := splitSlashAux s.data []
  if parts.length ≤ maxsplit + 1 then parts
  else parts.take maxsplit ++ [joinSlash (parts.drop maxsplit)]

/-- Whitespace characters stripped by Python `int(str)`. -/
def isPySpace (c : Char) : Bool :=
  c = ' ' || c = '\t' || c = '\n' || c = '\r' || c = '\x0b' || c = '\x0c'

/-- Decimal digit run to a number; `none` unless nonempty and all digits. -/
def digitsToNat (ds : List Char) : Option Nat :=
  if ds.isEmpty then none
  else if ds.all Char.isDigit then
    some (ds.foldl (fun a c => a * 10 + (c.toNat - 48)) 0)
  else none

/-- Python `int(payload)` on a decoded byte string: strip whitespace, an
optional sign, then decimal digits; `none` models a raised `ValueError`. -/
def pyInt (s : String) : Option Int :=
  let cs := ((s.data.dropWhile isPySpace).reverse.dropWhile isPySpace).reverse
  match cs with
  | '+' :: ds => (digitsToNat ds).map Int.ofNat
  | '-' :: ds => (digitsToNat ds).map (fun n => -(n : Int))
  | ds => (digitsToNat ds).map Int.ofNat

/-- Values produced by `json.loads` (numbers restricted to integers, which
covers every payload the broker protocol uses). -/
inductive JValue where
  | jnull : JValue
  | jbool : Bool → JValue
  | jnum : Int → JValue
  | jstr : String → JValue
  | jarr : List JValue → JValue
  | jobj : List (String × JValue) → JValue

/-- Python `str(x)` on a decoded JSON value (container renderings are
irrelevant to the broker's behaviour and kept schematic). -/
def pyStr : JValue → String
  | .jnull => "None"
  | .jbool b => if b then "True" else "False"
  | .jnum n => toString n
  | .jstr s => s
  | .jarr _ => "<list>"
  | .jobj _ => "<dict>"

/-- Python `str(x)` where `x` came from `dict.get` (absent key gives `None`). -/
def pyStrOpt : Option JValue → String
  | none => "None"
  | some v => pyStr v

/-- Python `int(x)` where `x` came from `dict.get`; `none` models the raised
`TypeError`/`ValueError`. -/
def pyIntJ : Option JValue → Option Int
  | some (.jnum n) => some n
  | some (.jstr s) => pyInt s
  | some (.jbool b) => some (if b then 1 else 0)
  | _ => none

/-- Characters of the class `[A-Za-z0-9+/]` in `WG_PUBKEY_PATTERN`. -/
def isB64Char (c : Char) : Bool :=
  c.isAlpha || c.isDigit || c = '+' || c = '/'

/-- Characters of the class `[AEIMQUYcgkosw480]` in `WG_PUBKEY_PATTERN`. -/
def isKey43Char (c : Char) : Bool :=
  c = 'A' || c = 'E' || c = 'I' || c = 'M' || c = 'Q' || c = 'U' || c = 'Y' ||
  c = 'c' || c = 'g' || c = 'k' || c = 'o' || c = 's' || c = 'w' ||
  c = '4' || c = '8' || c = '0'

/-- The word shape described by `^[A-Za-z0-9+/]{42}[AEIMQUYcgkosw480]=$`:
42 base64 characters, one restricted character, then `=` — 44 characters. -/
def wgKeyShape (cs : List Char) : Bool :=
  (cs.take 42).all isB64Char &&
    (match cs.drop 42 with
     | [c, d] => isKey43Char c && d = '='
     | _ => false)

/-- Membership of a string in the mathematical language of the regular
expression `^[A-Za-z0-9+/]{42}[AEIMQUYcgkosw480]=$`. -/
def wg_pubkey_pattern_lang (s : String) : Bool :=
  wgKeyShape s.data

/-- Embeds `WG_PUBKEY_PATTERN.match(s) is not None` with Python `re`
semantics: the pattern must match from the start, and `$` (no `MULTILINE`)
matches at the end of the string or just before one trailing newline. -/
def wg_pubkey_pattern_match (s : String) : Bool :=
  wgKeyShape (s.data.take 44) &&
    (s.data.drop 44 == ([] : List Char) || s.data.drop 44 == ['\n'])

/-- Embeds `is_valid_wg_pubkey` (app.py:366-381): return the key when the
regex matches, otherwise raise `ValueError`. -/
def is_valid_wg_pubkey (pubkey : String) : Except String String :=
  if wg_pubkey_pattern_match pubkey then .ok pubkey
  else .error ("Not a valid Wireguard public key: " ++ pubkey ++ ".")

/-- Modelled from the spec: `CONNECTED_PEERS_METRIC` is imported from
`wgkex.common.mqtt`, which is not part of the sources; the spec's glossary
fixes the metric name as `connected_peers`. -/
def CONNECTED_PEERS_METRIC : String := "connected_peers"

/-- Modelled from the spec: `TOPIC_WORKER_STATUS` is imported from
`wgkex.common.mqtt`, absent from the sources; its §4.5 template is
`wireguard/worker/<worker>/status`. -/
def TOPIC_WORKER_STATUS (worker : String) : String :=
  "wireguard/worker/" ++ worker ++ "/status"

/-- Modelled from the spec: `TOPIC_BROKER_STATUS` template
`wireguard/broker/<broker>/status` (§4.5). -/
def TOPIC_BROKER_STATUS (broker : String) : String :=
  "wireguard/broker/" ++ broker ++ "/status"

/-- Modelled from the spec: `TOPIC_WORKER_WG_DATA` template
`wireguard/worker/<worker>/<domain>/data` (§4.5). -/
def TOPIC_WORKER_WG_DATA (worker domain : String) : String :=
  "wireguard/worker/" ++ worker ++ "/" ++ domain ++ "/data"

/-- Per-worker record of the metrics store: the `online` flag and
`domain → (metric name → value)` counters (spec §4.2, data model §3). -/
structure WorkerMetrics where
  online : Bool := false
  domainMetrics : List (String × List (String × Int)) := []
deriving DecidableEq

/-- The `worker_metrics` store: worker-id to `WorkerMetrics`. -/
abbrev WMC := List (String × WorkerMetrics)

/-- Modelled from the spec: `WorkerMetricsCollection.get` (in the absent
`wgkex.broker.metrics`) returns the worker's record, a fresh default when
absent; creating does not set the worker online (§4.2). -/
def wmGet (c : WMC) (w : String) : WorkerMetrics :=
  (lookupA c w).getD {}

/-- Modelled from the spec: `is_online` reads the worker's `online` flag. -/
def wmIsOnline (c : WMC) (w : String) : Bool :=
  (wmGet c w).online

/-- Modelled from the spec: `set_online` / `set_offline` set the flag
idempotently, creating the record when absent. -/
def wmSetFlag : WMC → String → Bool → WMC
  | [], w, b => [(w, { online := b, domainMetrics := [] })]
  | (w', wm) :: rest, w, b =>
      if w' = w then (w', { wm with online := b }) :: rest
      else (w', wm) :: wmSetFlag rest w b

/-- Modelled from the spec: `get_domain_metrics` returns the metric map of
one domain, empty when absent. -/
def wmDomainMetrics (wm : WorkerMetrics) (d : String) : List (String × Int) :=
  (lookupA wm.domainMetrics d).getD []

/-- One stored metric value, `none` when the worker, the domain or the
metric has no entry. -/
def wmMetricValue (c : WMC) (w d m : String) : Option Int :=
  (lookupA c w).bind fun wm => (lookupA wm.domainMetrics d).bind fun dm => lookupA dm m

/-- The read `worker_metrics.get(w).get_domain_metrics(d).get(m, 0)`
performed by the v2 handler (app.py:208-212). -/
def wmRead (c : WMC) (w d m : String) : Int :=
  (lookupA (wmDomainMetrics (wmGet c w) d) m).getD 0

/-- Modelled from the spec: `update(worker, domain, metric, value)` creates
the worker record if absent (not online) and sets
`domain_metrics[domain][metric] = value` (§4.2). -/
def wmUpdate : WMC → String → String → String → Int → WMC
  | [], w, d, m, v =>
      [(w, { online := false, domainMetrics := [(d, [(m, v)])] })]
  | (w', wm) :: rest, w, d, m, v =>
      if w' = w then
        (w', { wm with
                 domainMetrics :=
                   insertA wm.domainMetrics d (insertA (wmDomainMetrics wm d) m v) }) :: rest
      else (w', wm) :: wmUpdate rest w d m v

/-- Candidates of `get_best_worker(d)`: workers that are online and have a
recorded `connected_peers` entry for `d`, with that value (spec §4.2). -/
def wmCandidates (c : WMC) (d : String) : List (String × Int) :=
  c.filterMap fun e =>
    if e.2.online then
      ((lookupA e.2.domainMetrics d).bind fun dm =>
          lookupA dm CONNECTED_PEERS_METRIC).map fun v => (e.1, v)
    else none

/-- Strict candidate order: fewer connected peers first, ties by
lexicographically smaller worker-id. -/
def candLt (a b : String × Int) : Prop :=
  a.2 < b.2 ∨ (a.2 = b.2 ∧ a.1 < b.1)

instance : DecidableRel candLt := fun a b => by
  unfold candLt; infer_instance

/-- Fold selecting the least candidate under `candLt`, keeping the earlier
one on full ties. -/
def bestCandAux (best : String × Int) : List (String × Int) → String × Int
  | [] => best
  | c :: cs => bestCandAux (if candLt c best then c else best) cs

/-- Least candidate of a list, `none` when empty. -/
def bestCand : List (String × Int) → Option (String × Int)
  | [] => none
  | c :: cs => some (bestCandAux c cs)

/-- Minimum of a list of integers, `none` when empty. -/
def minInt : List Int → Option Int
  | [] => none
  | v :: vs => some (vs.foldl min v)

/-- Modelled from the spec: `get_best_worker(domain)` of the absent
`wgkex.broker.metrics` (§4.2): among online workers with a recorded
`connected_peers` entry for `domain`, return the one with the minimum
value, ties broken by lexicographic worker-id, together with
`diff = second_lowest - current_peers` (0 with a single candidate) and
`current_peers`; `(none, 0, 0)` when there is no candidate. -/
def get_best_worker (c : WMC) (d : String) : Option String × Int × Int :=
  let cands := wmCandidates c d
  match bestCand cands with
  | none => (none, 0, 0)
  | some (w, v) =>
      let others := cands.filter fun e => e.1 ≠ w
      let diff := ((minInt (others.map (·.2))).map (· - v)).getD 0
      (some w, diff, v)

/-- Endpoint record of the worker data store (`WorkerData`, app.py:58-91). -/
structure WorkerData where
  external_address : String
  port : Int
  link_address : String
  public_key : String
deriving DecidableEq

/-- The key-exchange request DTO (`KeyExchange`, app.py:30-55). -/
structure KeyExchange where
  public_key : String
  domain : String
deriving DecidableEq

/-- The broker process state: the three stores of app.py:134-140 plus the
configured domain allow-list (loaded once at startup). -/
structure BrokerState where
  workerMetrics : WMC
  workerData : List ((String × String) × WorkerData)
  brokerStatus : List (String × Bool)
  configDomains : List String
deriving DecidableEq

/-- Modelled from the spec: `is_valid_domain(d)` of the absent
`wgkex.common.utils` is true iff `d` is in the configured domain set
(§4.1). -/
def is_valid_domain (s : BrokerState) (d : String) : Bool :=
  s.configDomains.contains d

/-- Count of online brokers, `sum(1 if broker.online else 0 for broker in
broker_status.values())` (app.py:206). -/
def onlineBrokers (s : BrokerState) : Nat :=
  (s.brokerStatus.filter fun e => e.2).length

/-- Embeds `WorkerData.from_dict` (app.py:72-91).  The source reads
`external_address = str(msg.get("ExternalAddress"))` (total), then
`port = int(msg.get("Port"))` (may raise), then the line
`link_address = str(link_address)` which names `link_address` before any
assignment and therefore raises `NameError` whenever it is reached; the
`public_key` validation below it is unreachable.  `Except.error` models the
raised exception. -/
def WorkerData.from_dict (msg : List (String × JValue)) : Except Unit WorkerData :=
  let ext := pyStrOpt (lookupA msg "ExternalAddress")
  match pyIntJ (lookupA msg "Port") with
  | none => .error ()
  | some _port => .error ()

/-- Embeds `KeyExchange.from_dict` (app.py:42-55) applied to the decoded
request body: validate `public_key` via `is_valid_wg_pubkey` (a non-string
value raises `TypeError` inside `re.match`), stringify `domain` and check
it against the configured domains.  The error string is the exception text
the HTTP handlers place in the 400 response. -/
def KeyExchange.from_dict (s : BrokerState) (body : Option JValue) :
    Except String KeyExchange :=
  match body with
  | none => .error "Failed to decode JSON object"
  | some (.jobj fs) =>
      match lookupA fs "public_key" with
      | some (.jstr k) =>
          match is_valid_wg_pubkey k with
          | .error e => .error e
          | .ok key =>
              let domain := pyStrOpt (lookupA fs "domain")
              if is_valid_domain s domain then .ok ⟨key, domain⟩
              else .error ("Domain " ++ domain ++ " not in configured domains.")
      | _ => .error "TypeError: expected string or bytes-like object"
  | some _ => .error "AttributeError"

/-- Embeds `handle_mqtt_message_metrics` (app.py:270-290): split the topic
at the first three slashes (a `ValueError` from unpacking propagates), drop
unknown domains and empty worker/metric labels, parse the integer payload
(a `ValueError` propagates) and write the metric into the store. -/
def handle_mqtt_message_metrics (s : BrokerState) (topic payload : String) :
    Except Unit BrokerState :=
  match pySplitSlash topic 3 with
  | [_, domain, worker, metric] =>
      if ¬ is_valid_domain s domain then .ok s
      else if worker = "" ∨ metric = "" then .ok s
      else
        match pyInt payload with
        | none => .error ()
        | some v =>
            .ok { s with workerMetrics := wmUpdate s.workerMetrics worker domain metric v }
  | _ => .error ()

/-- Embeds `handle_mqtt_message_worker_status` (app.py:293-306): the worker
id is the second `/`-separated segment of the topic (`split("/", 2)[1]`),
the integer payload flips the worker's `online` flag through
`set_offline` / `set_online`, guarded by `is_online` to stay idempotent. -/
def handle_mqtt_message_worker_status (s : BrokerState) (topic payload : String) :
    Except Unit BrokerState :=
  match pySplitSlash topic 2 with
  | [_, worker, _] =>
      match pyInt payload with
      | none => .error ()
      | some st =>
          if st < 1 ∧ wmIsOnline s.workerMetrics worker then
            .ok { s with workerMetrics := wmSetFlag s.workerMetrics worker false }
          else if 1 ≤ st ∧ ¬ wmIsOnline s.workerMetrics worker then
            .ok { s with workerMetrics := wmSetFlag s.workerMetrics worker true }
          else .ok s
  | _ => .error ()

/-- Embeds `handle_mqtt_message_data` (app.py:309-332).  The worker and
domain are the second and third `/`-separated segments
(`split("/", 3)[1:3]`); unknown domains are dropped; `loaded` is the result
of `json.loads(message.payload)` with `none` modelling a raised
`JSONDecodeError` (uncaught); a non-dict value or a `WorkerData.from_dict`
failure is logged and dropped; on success the record is stored under
`(worker, domain)`. -/
def handle_mqtt_message_data (s : BrokerState) (topic : String)
    (loaded : Option JValue) : Except Unit BrokerState :=
  match pySplitSlash topic 3 with
  | [_, worker, domain, _] =>
      if ¬ is_valid_domain s domain then .ok s
      else
        match loaded with
        | none => .error ()
        | some (.jobj fs) =>
            match WorkerData.from_dict fs with
            | .error _ => .ok s
            | .ok wd =>
                .ok { s with workerData := insertA s.workerData (worker, domain) wd }
        | some _ => .ok s
  | _ => .error ()

/-- Embeds `handle_mqtt_message_broker_status` (app.py:335-353): the broker
id is the second `/`-separated segment; a first message with payload `>= 1`
creates the entry online, a first offline message is ignored, later
messages only toggle the existing entry's flag. -/
def handle_mqtt_message_broker_status (s : BrokerState) (topic payload : String) :
    Except Unit BrokerState :=
  match pySplitSlash topic 2 with
  | [_, broker, _] =>
      match pyInt payload with
      | none => .error ()
      | some st =>
          match lookupA s.brokerStatus broker with
          | none =>
              if 1 ≤ st then
                .ok { s with brokerStatus := insertA s.brokerStatus broker true }
              else .ok s
          | some onl =>
              if st < 1 ∧ onl then
                .ok { s with brokerStatus := insertA s.brokerStatus broker false }
              else if 1 ≤ st ∧ ¬ onl then
                .ok { s with brokerStatus := insertA s.brokerStatus broker true }
              else .ok s
  | _ => .error ()

/-- Externally visible actions of an HTTP handler, in program order:
an MQTT publish (`mqtt.client.publish(topic, payload)`) or the worker
selection performed through `worker_metrics.get_best_worker(domain)`. -/
inductive Ev where
  | pub : String → String → Ev
  | select : String → Ev
deriving DecidableEq

/-- HTTP responses of the key-exchange handlers: an error JSON body with a
status code, the v1 `{"Message": "OK"}` body, or the v2 endpoint body. -/
inductive ApiResponse where
  | err : Nat → String → ApiResponse
  | okMessage : ApiResponse
  | okEndpoint : String → String → List String → String → ApiResponse
deriving DecidableEq

/-- Embeds `wg_api_v1_key_exchange` (app.py:153-171): validate the body
(400 with the exception text on failure), publish the raw key to
`wireguard/<domain>/all`, return 200 `{"Message": "OK"}`.  The result is
the ordered list of performed actions, the response, and the state (which
v1 never changes). -/
def wg_api_v1_key_exchange (s : BrokerState) (body : Option JValue) :
    List Ev × ApiResponse × BrokerState :=
  match KeyExchange.from_dict s body with
  | .error m => ([], .err 400 m, s)
  | .ok kx =>
      ([Ev.pub ("wireguard/" ++ kx.domain ++ "/all") kx.public_key], .okMessage, s)

/-- Embeds `wg_api_v2_key_exchange` (app.py:174-235): validate, publish the
raw key, select the best worker (400 when none), read the current
`connected_peers`, write back `current + online_brokers` (the interpolation
write), then answer with the stored endpoint (500 when absent). -/
def wg_api_v2_key_exchange (s : BrokerState) (body : Option JValue) :
    List Ev × ApiResponse × BrokerState :=
  match KeyExchange.from_dict s body with
  | .error m => ([], .err 400 m, s)
  | .ok kx =>
      let pubEv := Ev.pub ("wireguard/" ++ kx.domain ++ "/all") kx.public_key
      let evs := [pubEv, Ev.select kx.domain]
      match get_best_worker s.workerMetrics kx.domain with
      | (none, _, _) =>
          (evs,
           .err 400 "no gateway online for this domain, please check the domain value and try again later",
           s)
      | (some best, _diff, _current) =>
          let n := onlineBrokers s
          let cur := wmRead s.workerMetrics best kx.domain CONNECTED_PEERS_METRIC
          let s' := { s with
                        workerMetrics :=
                          wmUpdate s.workerMetrics best kx.domain CONNECTED_PEERS_METRIC
                            (cur + n) }
          match lookupA s.workerData (best, kx.domain) with
          | none => (evs, .err 500 "could not get gateway data", s')
          | some wd =>
              (evs,
               .okEndpoint wd.external_address (toString wd.port) [wd.link_address]
                 wd.public_key,
               s')

/-! Association-list lemmas shared by the claim proofs. -/

theorem lookupA_insertA_self {α β : Type} [DecidableEq α]
    (l : List (α × β)) (k : α) (v : β) :
    lookupA (insertA l k v) k = some v := by
  induction l with
  | nil => simp [insertA, lookupA]
  | cons e rest ih =>
      obtain ⟨k', w⟩ := e
      by_cases h : k' = k
      · simp [insertA, h, lookupA]
      · simp [insertA, h, lookupA, ih]

theorem lookupA_insertA_ne {α β : Type} [DecidableEq α]
    (l : List (α × β)) (k k' : α) (v : β) (h : k' ≠ k) :
    lookupA (insertA l k v) k' = lookupA l k' := by
  have h' : k ≠ k' := fun he => h he.symm
  induction l with
  | nil => simp [insertA, lookupA, h']
  | cons e rest ih =>
      obtain ⟨k'', w⟩ := e
      by_cases h2 : k'' = k
      · subst h2
        simp [insertA, lookupA, h']
      · simp [insertA, lookupA, h2, ih]

theorem lookupA_mem {α β : Type} [DecidableEq α]
    {l : List (α × β)} {k : α} {v : β} (h : lookupA l k = some v) :
    (k, v) ∈ l := by
  induction l with
  | nil => simp [lookupA] at h
  | cons e rest ih =>
      obtain ⟨k', w⟩ := e
      by_cases h2 : k' = k
      · subst h2
        simp [lookupA] at h
        simp [h]
      · simp [lookupA, h2] at h
        exact List.mem_cons_of_mem _ (ih h)

theorem mem_lookupA_of_nodup {α β : Type} [DecidableEq α]
    {l : List (α × β)} {k : α} {v : β}
    (hnd : (l.map Prod.fst).Nodup) (h : (k, v) ∈ l) :
    lookupA l k = some v := by
  induction l with
  | nil => simp at h
  | cons e rest ih =>
      obtain ⟨k', w⟩ := e
      simp only [List.map_cons, List.nodup_cons] at hnd
      rcases List.mem_cons.mp h with h1 | h1
      · cases h1
        simp [lookupA]
      · have hne : k' ≠ k := by
          intro he
          subst he
          exact hnd.1 (List.mem_map_of_mem Prod.fst h1)
        simp [lookupA, hne, ih hnd.2 h1]

theorem one_le_onlineBrokers_of_lookup {l : List (String × Bool)} {b : String}
    (h : lookupA l b = some true) :
    1 ≤ (l.filter fun e => e.2).length := by
  induction l with
  | nil => simp [lookupA] at h
  | cons e rest ih =>
      obtain ⟨k, v⟩ := e
      by_cases h2 : k = b
      · have hv : v = true := by simpa [lookupA, h2] using h
        subst hv
        simp [List.filter_cons]
      · have h' : lookupA rest b = some true := by simpa [lookupA, h2] using h
        cases v with
        | false => simpa [List.filter_cons] using ih h'
        | true => simp [List.filter_cons]

/-! Metrics-store lemmas. -/

theorem wmMetricValue_wmUpdate_self (c : WMC) (w d m : String) (v : Int) :
    wmMetricValue (wmUpdate c w d m v) w d m = some v := by
  induction c with
  | nil => simp [wmUpdate, wmMetricValue, lookupA]
  | cons e rest ih =>
      obtain ⟨w', wm⟩ := e
      by_cases h : w' = w
      · subst h
        simp [wmUpdate, wmMetricValue, lookupA, lookupA_insertA_self]
      · simpa [wmUpdate, h, wmMetricValue, lookupA] using ih

theorem wmRead_eq_metricValue (c : WMC) (w d m : String) :
    wmRead c w d m = (wmMetricValue c w d m).getD 0 := by
  unfold wmRead wmMetricValue wmGet wmDomainMetrics
  cases hw : lookupA c w with
  | none => simp [lookupA]
  | some wm =>
      cases hd : lookupA wm.domainMetrics d with
      | none => simp [hd, lookupA]
      | some dm => simp [hd]

theorem wmIsOnline_wmSetFlag_self (c : WMC) (w : String) (b : Bool) :
    wmIsOnline (wmSetFlag c w b) w = b := by
  induction c with
  | nil => simp [wmSetFlag, wmIsOnline, wmGet, lookupA]
  | cons e rest ih =>
      obtain ⟨w', wm⟩ := e
      by_cases h : w' = w
      · subst h
        simp [wmSetFlag, wmIsOnline, wmGet, lookupA]
      · simpa [wmSetFlag, h, wmIsOnline, wmGet, lookupA] using ih

/-! Selection lemmas: the fold in `get_best_worker` computes the minimum of
the candidate list under the order "fewer peers, then smaller worker-id". -/

/-- Sort key of a candidate: peers first, worker-id second,
lexicographically. -/
def candKey (e : String × Int) : Int ×ₗ String := toLex (e.2, e.1)

theorem candLt_iff_candKey (a b : String × Int) :
    candLt a b ↔ candKey a < candKey b := by
  simp [candLt, candKey, Prod.Lex.lt_iff]

theorem bestCandAux_mem (b : String × Int) (cs : List (String × Int)) :
    bestCandAux b cs ∈ b :: cs := by
  induction cs generalizing b with
  | nil => simp [bestCandAux]
  | cons c cs' ih =>
      have hstep : bestCandAux b (c :: cs') =
          bestCandAux (if candLt c b then c else b) cs' := rfl
      by_cases h : candLt c b
      · rw [hstep, if_pos h]
        rcases List.mem_cons.mp (ih c) with h1 | h1
        · simp [h1]
        · simp [List.mem_cons, h1]
      · rw [hstep, if_neg h]
        rcases List.mem_cons.mp (ih b) with h1 | h1
        · simp [h1]
        · simp [List.mem_cons, h1]

theorem candKey_bestCandAux_le (cs : List (String × Int)) :
    ∀ b, ∀ x ∈ b :: cs, candKey (bestCandAux b cs) ≤ candKey x := by
  induction cs with
  | nil =>
      intro b x hx
      simp at hx
      subst hx
      simp [bestCandAux]
  | cons c cs' ih =>
      intro b x hx
      have hstep : bestCandAux b (c :: cs') =
          bestCandAux (if candLt c b then c else b) cs' := rfl
      by_cases h : candLt c b
      · rw [hstep, if_pos h]
        rcases List.mem_cons.mp hx with h1 | h1
        · rw [h1]
          exact le_of_lt
            (lt_of_le_of_lt (ih c c (List.mem_cons_self c cs'))
              ((candLt_iff_candKey c b).mp h))
        · exact ih c x h1
      · rw [hstep, if_neg h]
        rcases List.mem_cons.mp hx with h1 | h1
        · rw [h1]
          exact ih b b (List.mem_cons_self b cs')
        · rcases List.mem_cons.mp h1 with h2 | h2
          · rw [h2]
            have hble : candKey b ≤ candKey c :=
              le_of_not_lt fun hc => h ((candLt_iff_candKey c b).mpr hc)
            exact le_trans (ih b b (List.mem_cons_self b cs')) hble
          · exact ih b x (List.mem_cons.mpr (Or.inr h2))

theorem bestCand_mem {cs : List (String × Int)} {e : String × Int}
    (h : bestCand cs = some e) : e ∈ cs := by
  cases cs with
  | nil => simp [bestCand] at h
  | cons c cs' =>
      simp only [bestCand, Option.some.injEq] at h
      subst h
      exact bestCandAux_mem c cs'

theorem bestCand_le {cs : List (String × Int)} {e : String × Int}
    (h : bestCand cs = some e) : ∀ x ∈ cs, candKey e ≤ candKey x := by
  cases cs with
  | nil => simp [bestCand] at h
  | cons c cs' =>
      simp only [bestCand, Option.some.injEq] at h
      subst h
      exact candKey_bestCandAux_le cs' c

theorem bestCand_eq_none_iff (cs : List (String × Int)) :
    bestCand cs = none ↔ cs = [] := by
  cases cs <;> simp [bestCand]

/-! Candidate-list characterisation. -/

theorem mem_wmCandidates_intro {c : WMC} {d w : String} {v : Int}
    (h1 : wmIsOnline c w = true)
    (h2 : wmMetricValue c w d CONNECTED_PEERS_METRIC = some v) :
    (w, v) ∈ wmCandidates c d := by
  unfold wmMetricValue at h2
  cases hw : lookupA c w with
  | none => rw [hw] at h2; simp at h2
  | some wm =>
      rw [hw] at h2
      have hmem : (w, wm) ∈ c := lookupA_mem hw
      have honl : wm.online = true := by
        unfold wmIsOnline wmGet at h1
        rw [hw] at h1
        simpa using h1
      unfold wmCandidates
      refine List.mem_filterMap.mpr ⟨(w, wm), hmem, ?_⟩
      simp only [Option.some_bind] at h2
      obtain ⟨dm, hdm, hm⟩ := Option.bind_eq_some.mp h2
      simp [honl, hdm, hm]

theorem mem_wmCandidates_elim {c : WMC} {d w : String} {v : Int}
    (hnd : (c.map Prod.fst).Nodup) (h : (w, v) ∈ wmCandidates c d) :
    wmIsOnline c w = true ∧ wmMetricValue c w d CONNECTED_PEERS_METRIC = some v := by
  unfold wmCandidates at h
  obtain ⟨e, hmem, hf⟩ := List.mem_filterMap.mp h
  obtain ⟨w', wm⟩ := e
  by_cases honl : wm.online
  · simp only [honl, if_pos] at hf
    rw [Option.map_eq_some'] at hf
    obtain ⟨a, ha, heq⟩ := hf
    obtain ⟨hw, hv⟩ : w' = w ∧ a = v := by simpa using heq
    subst hw
    subst hv
    have hlk : lookupA c w' = some wm := mem_lookupA_of_nodup hnd hmem
    constructor
    · unfold wmIsOnline wmGet
      rw [hlk]
      simpa using honl
    · unfold wmMetricValue
      rw [hlk]
      simpa using ha
  · simp [honl] at hf

/-! Pattern lemmas for the public-key validator. -/

theorem data_mk (l : List Char) : (String.mk l).data = l := rfl

theorem wgKeyShape_length {cs : List Char} (h : wgKeyShape cs = true) :
    cs.length = 44 := by
  unfold wgKeyShape at h
  rw [Bool.and_eq_true] at h
  have h2 := h.2
  have hlen : (cs.drop 42).length = 2 := by
    rcases hd : cs.drop 42 with _ | ⟨c, rest⟩
    · rw [hd] at h2
      simp at h2
    · rcases rest with _ | ⟨d, rest2⟩
      · rw [hd] at h2
        simp at h2
      · rcases rest2 with _ | ⟨e, rest3⟩
        · simp [hd]
        · rw [hd] at h2
          simp at h2
  rw [List.length_drop] at hlen
  omega

theorem wg_pubkey_pattern_match_iff (s : String) :
    wg_pubkey_pattern_match s = true ↔
      (wg_pubkey_pattern_lang s = true ∨
        (s.data.getLast? = some '\n' ∧
          wg_pubkey_pattern_lang (String.mk s.data.dropLast) = true)) := by
  unfold wg_pubkey_pattern_match wg_pubkey_pattern_lang
  rcases hd : s.data.drop 44 with _ | ⟨a, rest⟩
  · have hle : s.data.length ≤ 44 := List.drop_eq_nil_iff.mp hd
    rw [List.take_of_length_le hle]
    simp only [beq_self_eq_true, Bool.true_or, Bool.and_true]
    constructor
    · exact Or.inl
    · rintro (h | ⟨hlast, hshape⟩)
      · exact h
      · exfalso
        have h44 := wgKeyShape_length (by simpa [data_mk] using hshape)
        rw [List.length_dropLast] at h44
        omega
  · have hlen : s.data.length = 45 + rest.length := by
      have hld := List.length_drop 44 s.data
      rw [hd, List.length_cons] at hld
      omega
    rcases rest with _ | ⟨b2, rest2⟩
    · simp only [List.length_nil, Nat.add_zero] at hlen
      have hsplit : s.data.take 44 ++ [a] = s.data := by
        have htad := List.take_append_drop 44 s.data
        rw [hd] at htad
        exact htad
      have hdl : s.data.dropLast = s.data.take 44 := by
        rw [List.dropLast_eq_take, hlen]
      have hlast : s.data.getLast? = some a := by
        rw [← hsplit]
        exact List.getLast?_concat _
      constructor
      · intro hL
        rw [Bool.and_eq_true] at hL
        have ha : a = '\n' := by
          have := hL.2
          simpa [beq_iff_eq] using this
        right
        refine ⟨by rw [hlast, ha], ?_⟩
        simpa [data_mk, hdl] using hL.1
      · rintro (h | ⟨hlast2, hshape⟩)
        · exfalso
          have h44 := wgKeyShape_length h
          omega
        · have ha : a = '\n' := by
            rw [hlast] at hlast2
            exact Option.some.inj hlast2
          rw [Bool.and_eq_true]
          refine ⟨by simpa [data_mk, hdl] using hshape, by simp [ha]⟩
    · constructor
      · intro hL
        exfalso
        rw [Bool.and_eq_true] at hL
        have := hL.2
        simp [beq_iff_eq] at this
      · rintro (h | ⟨hlast2, hshape⟩)
        · exfalso
          have h44 := wgKeyShape_length h
          omega
        · exfalso
          have h44 := wgKeyShape_length (by simpa [data_mk] using hshape)
          rw [List.length_dropLast] at h44
          rw [List.length_cons] at hlen
          omega

/-- A well-formed 44-character WireGuard public key used in witnesses. -/
def goodKey : String := "AAAAAAAAAAAAAAAAAAAAAAAAAAAAAAAAAAAAAAAAAAA="

/-- The same pattern word followed by one newline — accepted by Python
`re.match` because `$` matches before a trailing newline. -/
def newlineKey : String := "AAAAAAAAAAAAAAAAAAAAAAAAAAAAAAAAAAAAAAAAAAA=\n"

/-- A fresh broker state: empty stores, configured domains `["ffda"]`. -/
def initState : BrokerState := ⟨[], [], [], ["ffda"]⟩

/-- `WorkerData.from_dict` always fails: the `link_address =
str(link_address)` line raises `NameError` on every input that survives the
`Port` conversion. -/
theorem workerData_from_dict_error (msg : List (String × JValue)) :
    ∃ e, WorkerData.from_dict msg = .error e := by
  cases h : pyIntJ (lookupA msg "Port") with
  | none => exact ⟨(), by simp [WorkerData.from_dict, h]⟩
  | some p => exact ⟨(), by simp [WorkerData.from_dict, h]⟩

/-- C7: counterexample.  Python's `$` also matches just before a trailing
newline, so `is_valid_wg_pubkey` returns a 45-character string — a pattern
word plus `"\n"` — unchanged, although that string is not in the language
of `^[A-Za-z0-9+/]{42}[AEIMQUYcgkosw480]=$`; the claimed "returns k
unchanged iff k matches" is false at this input. -/
theorem c7_counterexample :
    is_valid_wg_pubkey newlineKey = .ok newlineKey ∧
    wg_pubkey_pattern_lang newlineKey = false := ⟨rfl, rfl⟩

/-- C7 (amended): `is_valid_wg_pubkey k` returns `k` unchanged iff `k`
matches the pattern under Python `re.match` semantics — that is, iff `k` is
in the language of `^[A-Za-z0-9+/]{42}[AEIMQUYcgkosw480]=$` or is such a
word followed by a single trailing newline; every other string fails with
the `InvalidKey` error. -/
theorem c7_pubkey_validation (k : String) :
    (is_valid_wg_pubkey k = .ok k ↔
      (wg_pubkey_pattern_lang k = true ∨
        (k.data.getLast? = some '\n' ∧
          wg_pubkey_pattern_lang (String.mk k.data.dropLast) = true))) ∧
    (wg_pubkey_pattern_match k = false →
      is_valid_wg_pubkey k =
        .error ("Not a valid Wireguard public key: " ++ k ++ ".")) := by
  constructor
  · rw [← wg_pubkey_pattern_match_iff k]
    unfold is_valid_wg_pubkey
    cases h : wg_pubkey_pattern_match k
    · simp [h]
    · simp [h]
  · intro h
    simp [is_valid_wg_pubkey, h]

/-- C7 witness: the amended theorem applied to a rejected and an accepted
concrete key. -/
theorem c7_pubkey_validation_witness :
    is_valid_wg_pubkey "short" =
      .error ("Not a valid Wireguard public key: " ++ "short" ++ ".") ∧
    is_valid_wg_pubkey goodKey = .ok goodKey :=
  ⟨(c7_pubkey_validation "short").2 (by rfl),
   (c7_pubkey_validation goodKey).1.mpr (Or.inl (by rfl))⟩

/-- C3: the worker-data handler can never store an endpoint record, because
`WorkerData.from_dict` raises `NameError` at `link_address =
str(link_address)` on every message (the exception is caught and the
message dropped).  First conjunct: `from_dict` always fails.  Second: every
non-raising run of the handler leaves the state untouched.  Third: on the
spec's own happy-path input — configured domain, all four fields present,
valid `PublicKey` — nothing is stored. -/
theorem c3_data_never_stored :
    (∀ msg, ∃ e, WorkerData.from_dict msg = .error e) ∧
    (∀ s topic loaded,
       handle_mqtt_message_data s topic loaded = .error () ∨
       handle_mqtt_message_data s topic loaded = .ok s) ∧
    (handle_mqtt_message_data initState "wireguard-worker/gw1/ffda/data"
        (some (.jobj [("ExternalAddress", .jstr "gw1.example"),
          ("Port", .jnum 51820), ("LinkAddress", .jstr "fe80::1/64"),
          ("PublicKey", .jstr goodKey)])) = .ok initState ∧
      lookupA initState.workerData ("gw1", "ffda") = none) := by
  refine ⟨workerData_from_dict_error, ?_, rfl, rfl⟩
  intro s topic loaded
  unfold handle_mqtt_message_data
  split
  · split
    · right
      rfl
    · match loaded with
      | none => left; rfl
      | some (.jobj fs) =>
          obtain ⟨e, he⟩ := workerData_from_dict_error fs
          right
          simp [he]
      | some .jnull => right; rfl
      | some (.jbool b) => right; rfl
      | some (.jnum n) => right; rfl
      | some (.jstr st) => right; rfl
      | some (.jarr xs) => right; rfl
  · left
    rfl

/-- C5: counterexample.  A non-integer payload on the metrics topic makes
`int(message.payload)` raise `ValueError` with no surrounding try/except:
the exception propagates out of the callback instead of being logged and
dropped, so "no MQTT callback ever propagates an exception" is false. -/
theorem c5_counterexample :
    handle_mqtt_message_metrics initState
      "wireguard-metrics/ffda/gw1/connected_peers" "abc" = .error () := rfl

/-- C5 (amended): on the data topic a payload that decodes to JSON is
always logged-and-dropped or stored (the callback returns normally); but a
payload that is not valid JSON on the data topic of a configured domain, a
non-integer payload on the worker-status or broker-status topic, and a
non-integer payload on the metrics topic of a configured domain with
nonempty worker and metric labels, raise an uncaught exception out of the
callback — `json.loads(message.payload)` and `int(message.payload)` have no
surrounding try/except, though messages rejected earlier by the domain or
empty-label guards are dropped before the parse runs. -/
theorem c5_bad_payloads :
    (∀ s topic (j : JValue) t0 w d t3,
       pySplitSlash topic 3 = [t0, w, d, t3] →
       ∃ s', handle_mqtt_message_data s topic (some j) = .ok s') ∧
    (∀ s topic t0 w d t3,
       pySplitSlash topic 3 = [t0, w, d, t3] → is_valid_domain s d = true →
       handle_mqtt_message_data s topic none = .error ()) ∧
    (∀ s topic payload t0 w t2,
       pySplitSlash topic 2 = [t0, w, t2] → pyInt payload = none →
       handle_mqtt_message_worker_status s topic payload = .error ()) ∧
    (∀ s topic payload t0 b t2,
       pySplitSlash topic 2 = [t0, b, t2] → pyInt payload = none →
       handle_mqtt_message_broker_status s topic payload = .error ()) ∧
    (∀ s topic payload t0 d w m,
       pySplitSlash topic 3 = [t0, d, w, m] →
       is_valid_domain s d = true → w ≠ "" → m ≠ "" → pyInt payload = none →
       handle_mqtt_message_metrics s topic payload = .error ()) := by
  refine ⟨?_, ?_, ?_, ?_, ?_⟩
  · intro s topic j t0 w d t3 hsplit
    unfold handle_mqtt_message_data
    rw [hsplit]
    by_cases hdm : is_valid_domain s d = true
    · match j with
      | .jobj fs =>
          obtain ⟨e, he⟩ := workerData_from_dict_error fs
          exact ⟨s, by simp [hdm, he]⟩
      | .jnull => exact ⟨s, by simp [hdm]⟩
      | .jbool b => exact ⟨s, by simp [hdm]⟩
      | .jnum n => exact ⟨s, by simp [hdm]⟩
      | .jstr st => exact ⟨s, by simp [hdm]⟩
      | .jarr xs => exact ⟨s, by simp [hdm]⟩
    · exact ⟨s, by simp [hdm]⟩
  · intro s topic t0 w d t3 hsplit hdm
    unfold handle_mqtt_message_data
    rw [hsplit]
    simp [hdm]
  · intro s topic payload t0 w t2 hsplit hint
    unfold handle_mqtt_message_worker_status
    rw [hsplit, hint]
  · intro s topic payload t0 b t2 hsplit hint
    unfold handle_mqtt_message_broker_status
    rw [hsplit, hint]
  · intro s topic payload t0 d w m hsplit hdom hw hm hint
    unfold handle_mqtt_message_metrics
    rw [hsplit, hint]
    simp [hdom, hw, hm]

/-- C5 witness: the amended theorem at concrete topics and payloads. -/
theorem c5_bad_payloads_witness :
    (∃ s', handle_mqtt_message_data initState "wireguard-worker/gw1/ffda/data"
        (some (.jnum 3)) = .ok s') ∧
    handle_mqtt_message_data initState "wireguard-worker/gw1/ffda/data"
      none = .error () ∧
    handle_mqtt_message_worker_status initState "wireguard-worker/gw1/status"
      "abc" = .error () ∧
    handle_mqtt_message_broker_status initState "wireguard-broker/b1/status"
      "abc" = .error () ∧
    handle_mqtt_message_metrics initState
      "wireguard-metrics/ffda/gw1/connected_peers" "xyz" = .error () :=
  ⟨c5_bad_payloads.1 initState "wireguard-worker/gw1/ffda/data" (.jnum 3)
      "wireguard-worker" "gw1" "ffda" "data" (by rfl),
   c5_bad_payloads.2.1 initState "wireguard-worker/gw1/ffda/data"
      "wireguard-worker" "gw1" "ffda" "data" (by rfl) (by rfl),
   c5_bad_payloads.2.2.1 initState "wireguard-worker/gw1/status" "abc"
      "wireguard-worker" "gw1" "status" (by rfl) (by rfl),
   c5_bad_payloads.2.2.2.1 initState "wireguard-broker/b1/status" "abc"
      "wireguard-broker" "b1" "status" (by rfl) (by rfl),
   c5_bad_payloads.2.2.2.2 initState "wireguard-metrics/ffda/gw1/connected_peers"
      "xyz" "wireguard-metrics" "ffda" "gw1" "connected_peers" (by rfl)
      (by rfl) (by decide) (by decide) (by rfl)⟩

/-- C2: counterexample.  On the spec's worker-status topic
`wireguard/worker/gw1/status` (four segments) with payload `1`, the
handler's `split("/", 2)[1]` extraction yields the literal segment
`worker`, not `gw1`: `gw1` stays offline and a worker record named
`worker` is marked online instead — the claim "applies the status to that
worker w" fails at this input. -/
theorem c2_counterexample :
    handle_mqtt_message_worker_status initState (TOPIC_WORKER_STATUS "gw1") "1" =
      .ok ⟨[("worker", { online := true, domainMetrics := [] })], [], [], ["ffda"]⟩ ∧
    wmIsOnline [("worker", { online := true, domainMetrics := [] })] "gw1" = false :=
  ⟨rfl, rfl⟩

/-- C2 (amended): the worker-status handler takes the second `/`-separated
segment of the topic as the worker id — the worker identifier `w` only
under a three-segment scheme `<prefix>/<w>/status`, and the constant
`worker` under the spec's four-segment `wireguard/worker/<w>/status`.  For
the extracted id, an integer payload `>= 1` marks it online in the metrics
store and any other integer payload leaves or marks it offline; the other
stores are untouched. -/
theorem c2_worker_status (s : BrokerState) (topic payload : String)
    (t0 wid t2 : String) (hsplit : pySplitSlash topic 2 = [t0, wid, t2])
    (i : Int) (hint : pyInt payload = some i) :
    ∃ s', handle_mqtt_message_worker_status s topic payload = .ok s' ∧
      wmIsOnline s'.workerMetrics wid = decide (1 ≤ i) ∧
      s'.workerData = s.workerData ∧ s'.brokerStatus = s.brokerStatus := by
  unfold handle_mqtt_message_worker_status
  rw [hsplit, hint]
  by_cases hlt : i < 1
  · have hdec : decide (1 ≤ i) = false := decide_eq_false (by omega)
    cases honl : wmIsOnline s.workerMetrics wid
    · refine ⟨s, by simp [hlt, honl], ?_, rfl, rfl⟩
      rw [hdec, honl]
    · refine ⟨{ s with workerMetrics := wmSetFlag s.workerMetrics wid false },
        by simp [hlt, honl], ?_, rfl, rfl⟩
      rw [hdec]
      exact wmIsOnline_wmSetFlag_self s.workerMetrics wid false
  · have hdec : decide (1 ≤ i) = true := decide_eq_true (by omega)
    cases honl : wmIsOnline s.workerMetrics wid
    · refine ⟨{ s with workerMetrics := wmSetFlag s.workerMetrics wid true },
        by simp [hlt, honl], ?_, rfl, rfl⟩
      rw [hdec]
      exact wmIsOnline_wmSetFlag_self s.workerMetrics wid true
    · refine ⟨s, by simp [hlt, honl], ?_, rfl, rfl⟩
      rw [hdec, honl]

/-- C2 witness: the amended theorem on a three-segment topic, where the
extracted segment is the true worker id. -/
theorem c2_worker_status_witness :
    ∃ s', handle_mqtt_message_worker_status initState
        "wireguard-worker/gw1/status" "1" = .ok s' ∧
      wmIsOnline s'.workerMetrics "gw1" = decide ((1 : Int) ≤ 1) ∧
      s'.workerData = initState.workerData ∧
      s'.brokerStatus = initState.brokerStatus :=
  c2_worker_status initState "wireguard-worker/gw1/status" "1"
    "wireguard-worker" "gw1" "status" (by rfl) 1 (by rfl)

/-- C9: for the broker id extracted from the topic, the broker-status
handler creates an entry only on a first payload `>= 1`; a first-time
offline payload leaves the store unchanged; existing entries are never
deleted — every broker with an entry before the message still has one
after, entries of other brokers are untouched, and only the extracted
broker's flag is written. -/
theorem c9_broker_lifecycle (s : BrokerState) (topic payload : String)
    (t0 bid t2 : String) (hsplit : pySplitSlash topic 2 = [t0, bid, t2])
    (i : Int) (hint : pyInt payload = some i) :
    ∃ s', handle_mqtt_message_broker_status s topic payload = .ok s' ∧
      (lookupA s.brokerStatus bid = none → i < 1 → s' = s) ∧
      (lookupA s.brokerStatus bid = none →
        ((lookupA s'.brokerStatus bid).isSome = true ↔ 1 ≤ i)) ∧
      (∀ b, (lookupA s.brokerStatus b).isSome = true →
        (lookupA s'.brokerStatus b).isSome = true) ∧
      (∀ b, b ≠ bid → lookupA s'.brokerStatus b = lookupA s.brokerStatus b) ∧
      s'.workerMetrics = s.workerMetrics ∧ s'.workerData = s.workerData := by
  unfold handle_mqtt_message_broker_status
  rw [hsplit, hint]
  have hpres : ∀ (bb : Bool) b, (lookupA s.brokerStatus b).isSome = true →
      (lookupA (insertA s.brokerStatus bid bb) b).isSome = true := by
    intro bb b hb
    by_cases hbe : b = bid
    · subst hbe
      rw [lookupA_insertA_self]
      rfl
    · rw [lookupA_insertA_ne _ _ _ _ hbe]
      exact hb
  have hne : ∀ (bb : Bool) b, b ≠ bid →
      lookupA (insertA s.brokerStatus bid bb) b = lookupA s.brokerStatus b :=
    fun bb b h => lookupA_insertA_ne _ _ _ _ h
  cases hk : lookupA s.brokerStatus bid with
  | none =>
      by_cases hge : 1 ≤ i
      · refine ⟨{ s with brokerStatus := insertA s.brokerStatus bid true },
          by simp [hk, hge], ?_, ?_, hpres true, hne true, rfl, rfl⟩
        · intro _ hlt
          omega
        · intro _
          rw [lookupA_insertA_self]
          simpa using hge
      · refine ⟨s, by simp [hk, hge], fun _ _ => rfl, ?_, fun b hb => hb,
          fun b _ => rfl, rfl, rfl⟩
        intro _
        rw [hk]
        simpa using hge
  | some onl =>
      cases onl with
      | true =>
          by_cases hlt : i < 1
          · refine ⟨{ s with brokerStatus := insertA s.brokerStatus bid false },
              by simp [hk, hlt], ?_, ?_, hpres false, hne false, rfl, rfl⟩
            · intro habs
              simp at habs
            · intro habs
              simp at habs
          · refine ⟨s, by simp [hk, hlt], ?_, ?_, fun b hb => hb,
              fun b _ => rfl, rfl, rfl⟩
            · intro habs
              simp at habs
            · intro habs
              simp at habs
      | false =>
          by_cases hge : 1 ≤ i
          · refine ⟨{ s with brokerStatus := insertA s.brokerStatus bid true },
              by simp [hk, hge], ?_, ?_, hpres true, hne true, rfl, rfl⟩
            · intro habs
              simp at habs
            · intro habs
              simp at habs
          · refine ⟨s, by simp [hk, hge], ?_, ?_, fun b hb => hb,
              fun b _ => rfl, rfl, rfl⟩
            · intro habs
              simp at habs
            · intro habs
              simp at habs

/-- C9 witness: a first-time offline message for an unknown broker leaves
the store unchanged; the existing entry for `b1` survives. -/
theorem c9_broker_lifecycle_witness :
    ∃ s', handle_mqtt_message_broker_status
        ⟨[], [], [("b1", true)], ["ffda"]⟩ "wireguard-broker/b2/status" "0" =
          .ok s' ∧
      (lookupA ([("b1", true)] : List (String × Bool)) "b2" = none →
        (0 : Int) < 1 → s' = ⟨[], [], [("b1", true)], ["ffda"]⟩) ∧
      (lookupA ([("b1", true)] : List (String × Bool)) "b2" = none →
        ((lookupA s'.brokerStatus "b2").isSome = true ↔ (1 : Int) ≤ 0)) ∧
      (∀ b, (lookupA ([("b1", true)] : List (String × Bool)) b).isSome = true →
        (lookupA s'.brokerStatus b).isSome = true) ∧
      (∀ b, b ≠ "b2" →
        lookupA s'.brokerStatus b =
          lookupA ([("b1", true)] : List (String × Bool)) b) ∧
      s'.workerMetrics = ([] : WMC) ∧
      s'.workerData = ([] : List ((String × String) × WorkerData)) :=
  c9_broker_lifecycle ⟨[], [], [("b1", true)], ["ffda"]⟩
    "wireguard-broker/b2/status" "0" "wireguard-broker" "b2" "status"
    (by rfl) 0 (by rfl)

/-- Worker `gw1` marked online, no metrics yet. -/
def c8Mid : BrokerState :=
  ⟨[("gw1", { online := true, domainMetrics := [] })], [], [], ["ffda"]⟩

/-- Worker `gw1` online with 7 connected peers for `ffda`; no broker-status
entry has been processed yet. -/
def c8State : BrokerState :=
  ⟨[("gw1", { online := true, domainMetrics := [("ffda", [("connected_peers", 7)])] })],
   [], [], ["ffda"]⟩

/-- A valid v2 request body for domain `ffda`. -/
def reqBody : Option JValue :=
  some (.jobj [("public_key", .jstr goodKey), ("domain", .jstr "ffda")])

/-- C8: counterexample.  A state reachable by two MQTT messages (worker
`gw1` online, 7 peers for `ffda`) before any broker-status message has
arrived — the broker's own online announcement travels through MQTT and
need not have been delivered — lets a v2 request reach the interpolation
step with `online_brokers = 0`: selection succeeds, the metric is
incremented by 0, so `n >= 1` does not hold in every such execution. -/
theorem c8_counterexample :
    handle_mqtt_message_worker_status initState "wireguard-worker/gw1/status"
      "1" = .ok c8Mid ∧
    handle_mqtt_message_metrics c8Mid
      "wireguard-metrics/ffda/gw1/connected_peers" "7" = .ok c8State ∧
    (get_best_worker c8State.workerMetrics "ffda").1 = some "gw1" ∧
    onlineBrokers c8State = 0 ∧
    (wg_api_v2_key_exchange c8State reqBody).2.1 =
      .err 500 "could not get gateway data" ∧
    wmMetricValue (wg_api_v2_key_exchange c8State reqBody).2.2.workerMetrics
      "gw1" "ffda" CONNECTED_PEERS_METRIC = some 7 :=
  ⟨rfl, rfl, rfl, rfl, rfl, rfl⟩

/-- C8 (amended): the `n` used at the interpolation step equals the count
of online entries in `broker_status`; it is at least 1 from the moment the
broker-status handler processes any online (payload `>= 1`) announcement —
in particular the broker's own retained `1` — but an execution that reaches
the interpolation step before that sees `n = 0`. -/
theorem c8_online_brokers (s : BrokerState) (topic payload : String)
    (t0 bid t2 : String) (hsplit : pySplitSlash topic 2 = [t0, bid, t2])
    (i : Int) (hint : pyInt payload = some i) (hge : 1 ≤ i) :
    ∃ s', handle_mqtt_message_broker_status s topic payload = .ok s' ∧
      1 ≤ onlineBrokers s' := by
  unfold handle_mqtt_message_broker_status
  rw [hsplit, hint]
  cases hk : lookupA s.brokerStatus bid with
  | none =>
      refine ⟨{ s with brokerStatus := insertA s.brokerStatus bid true },
        by simp [hk, hge], ?_⟩
      exact one_le_onlineBrokers_of_lookup
        (lookupA_insertA_self s.brokerStatus bid true)
  | some onl =>
      cases onl with
      | true =>
          refine ⟨s, by simp [hk, show ¬ i < 1 by omega], ?_⟩
          exact one_le_onlineBrokers_of_lookup hk
      | false =>
          refine ⟨{ s with brokerStatus := insertA s.brokerStatus bid true },
            by simp [hk, hge], ?_⟩
          exact one_le_onlineBrokers_of_lookup
            (lookupA_insertA_self s.brokerStatus bid true)

/-- C8 witness: the amended theorem on the broker's own announcement. -/
theorem c8_online_brokers_witness :
    ∃ s', handle_mqtt_message_broker_status initState
        "wireguard-broker/b1/status" "1" = .ok s' ∧
      1 ≤ onlineBrokers s' :=
  c8_online_brokers initState "wireguard-broker/b1/status" "1"
    "wireguard-broker" "b1" "status" (by rfl) 1 (by rfl) (by decide)

/-- Evaluation of the v2 handler when selection fails. -/
theorem wg_api_v2_of_none (s : BrokerState) (body : Option JValue)
    (kx : KeyExchange) (df cr : Int)
    (hkx : KeyExchange.from_dict s body = .ok kx)
    (hgb : get_best_worker s.workerMetrics kx.domain = (none, df, cr)) :
    wg_api_v2_key_exchange s body =
      ([Ev.pub ("wireguard/" ++ kx.domain ++ "/all") kx.public_key,
        Ev.select kx.domain],
       .err 400 "no gateway online for this domain, please check the domain value and try again later",
       s) := by
  simp [wg_api_v2_key_exchange, hkx, hgb]

/-- Evaluation of the v2 handler when selection picks `w`: the publish and
select actions happen in that order, the metric of `(w, domain)` is written
to `read + online_brokers`, and the response depends only on the stored
endpoint. -/
theorem wg_api_v2_of_some (s : BrokerState) (body : Option JValue)
    (kx : KeyExchange) (w : String) (df cr : Int)
    (hkx : KeyExchange.from_dict s body = .ok kx)
    (hgb : get_best_worker s.workerMetrics kx.domain = (some w, df, cr)) :
    wg_api_v2_key_exchange s body =
      ([Ev.pub ("wireguard/" ++ kx.domain ++ "/all") kx.public_key,
        Ev.select kx.domain],
       (match lookupA s.workerData (w, kx.domain) with
        | none => ApiResponse.err 500 "could not get gateway data"
        | some wd =>
            ApiResponse.okEndpoint wd.external_address (toString wd.port)
              [wd.link_address] wd.public_key),
       { s with
           workerMetrics :=
             wmUpdate s.workerMetrics w kx.domain CONNECTED_PEERS_METRIC
               (wmRead s.workerMetrics w kx.domain CONNECTED_PEERS_METRIC +
                 (onlineBrokers s : Int)) }) := by
  cases hlk : lookupA s.workerData (w, kx.domain) with
  | none => simp [wg_api_v2_key_exchange, hkx, hgb, hlk]
  | some wd => simp [wg_api_v2_key_exchange, hkx, hgb, hlk]

/-- Two online workers with metrics for `ffda`, an endpoint record for
`gw2`, one online broker. -/
def apiState : BrokerState :=
  ⟨[("gw1", { online := true, domainMetrics := [("ffda", [("connected_peers", 10)])] }),
    ("gw2", { online := true, domainMetrics := [("ffda", [("connected_peers", 7)])] })],
   [(("gw2", "ffda"), ⟨"gw2.example", 51820, "fe80::1/64", goodKey⟩)],
   [("b1", true)], ["ffda"]⟩

/-- C4: in a v2 request whose body validates to `kx` and whose selection
returns worker `w`, the stored `connected_peers` metric of `(w, kx.domain)`
after the request equals the value read during the request (0 when no
entry existed) plus the number of online brokers — in both the
option-valued and the defaulted read. -/
theorem c4_interpolation (s : BrokerState) (body : Option JValue)
    (kx : KeyExchange) (hkx : KeyExchange.from_dict s body = .ok kx)
    (w : String)
    (hbest : (get_best_worker s.workerMetrics kx.domain).1 = some w) :
    wmMetricValue (wg_api_v2_key_exchange s body).2.2.workerMetrics w
        kx.domain CONNECTED_PEERS_METRIC =
      some (wmRead s.workerMetrics w kx.domain CONNECTED_PEERS_METRIC +
        (onlineBrokers s : Int)) ∧
    wmRead (wg_api_v2_key_exchange s body).2.2.workerMetrics w kx.domain
        CONNECTED_PEERS_METRIC =
      wmRead s.workerMetrics w kx.domain CONNECTED_PEERS_METRIC +
        (onlineBrokers s : Int) := by
  rcases hgb : get_best_worker s.workerMetrics kx.domain with ⟨b, df, cr⟩
  rw [hgb] at hbest
  simp at hbest
  subst hbest
  have hv2 := wg_api_v2_of_some s body kx w df cr hkx hgb
  have hst : (wg_api_v2_key_exchange s body).2.2.workerMetrics =
      wmUpdate s.workerMetrics w kx.domain CONNECTED_PEERS_METRIC
        (wmRead s.workerMetrics w kx.domain CONNECTED_PEERS_METRIC +
          (onlineBrokers s : Int)) := by
    rw [hv2]
  rw [hst]
  constructor
  · exact wmMetricValue_wmUpdate_self _ _ _ _ _
  · rw [wmRead_eq_metricValue, wmMetricValue_wmUpdate_self]
    rfl

/-- C4 witness: the theorem at a concrete state where `gw2` wins selection
with 7 peers and one broker is online. -/
theorem c4_interpolation_witness :
    wmMetricValue (wg_api_v2_key_exchange apiState reqBody).2.2.workerMetrics
        "gw2" "ffda" CONNECTED_PEERS_METRIC =
      some (wmRead apiState.workerMetrics "gw2" "ffda" CONNECTED_PEERS_METRIC +
        (onlineBrokers apiState : Int)) ∧
    wmRead (wg_api_v2_key_exchange apiState reqBody).2.2.workerMetrics "gw2"
        "ffda" CONNECTED_PEERS_METRIC =
      wmRead apiState.workerMetrics "gw2" "ffda" CONNECTED_PEERS_METRIC +
        (onlineBrokers apiState : Int) :=
  c4_interpolation apiState reqBody ⟨goodKey, "ffda"⟩ (by rfl) "gw2" (by rfl)

/-- C6: with a validated body, v1 performs exactly one action — publishing
the raw key to `wireguard/<domain>/all` — and returns 200 with no
selection; v2's action list starts with that same publish followed by the
selection, for every selection outcome, so a failing selection still
happens after the key has been published. -/
theorem c6_publish_before_select (s : BrokerState) (body : Option JValue)
    (kx : KeyExchange) (hkx : KeyExchange.from_dict s body = .ok kx) :
    wg_api_v1_key_exchange s body =
      ([Ev.pub ("wireguard/" ++ kx.domain ++ "/all") kx.public_key],
       .okMessage, s) ∧
    ∃ r s', wg_api_v2_key_exchange s body =
      ([Ev.pub ("wireguard/" ++ kx.domain ++ "/all") kx.public_key,
        Ev.select kx.domain], r, s') := by
  constructor
  · simp [wg_api_v1_key_exchange, hkx]
  · rcases hgb : get_best_worker s.workerMetrics kx.domain with ⟨b, df, cr⟩
    cases b with
    | none => exact ⟨_, _, wg_api_v2_of_none s body kx df cr hkx hgb⟩
    | some w => exact ⟨_, _, wg_api_v2_of_some s body kx w df cr hkx hgb⟩

/-- C6 witness: the theorem at a concrete state and request. -/
theorem c6_publish_before_select_witness :
    wg_api_v1_key_exchange apiState reqBody =
      ([Ev.pub ("wireguard/" ++ "ffda" ++ "/all") goodKey],
       .okMessage, apiState) ∧
    ∃ r s', wg_api_v2_key_exchange apiState reqBody =
      ([Ev.pub ("wireguard/" ++ "ffda" ++ "/all") goodKey,
        Ev.select "ffda"], r, s') :=
  c6_publish_before_select apiState reqBody ⟨goodKey, "ffda"⟩ (by rfl)

/-- C10: a v2 request that answers 500 "could not get gateway data" has
nevertheless validated its body, selected a worker, found no endpoint
record for it — and its side effects stand: the key was published and the
`connected_peers` metric of the chosen worker was incremented by the
online-broker count. -/
theorem c10_no_rollback (s : BrokerState) (body : Option JValue)
    (h500 : (wg_api_v2_key_exchange s body).2.1 =
      .err 500 "could not get gateway data") :
    ∃ kx w, KeyExchange.from_dict s body = .ok kx ∧
      (get_best_worker s.workerMetrics kx.domain).1 = some w ∧
      lookupA s.workerData (w, kx.domain) = none ∧
      Ev.pub ("wireguard/" ++ kx.domain ++ "/all") kx.public_key ∈
        (wg_api_v2_key_exchange s body).1 ∧
      wmMetricValue (wg_api_v2_key_exchange s body).2.2.workerMetrics w
          kx.domain CONNECTED_PEERS_METRIC =
        some (wmRead s.workerMetrics w kx.domain CONNECTED_PEERS_METRIC +
          (onlineBrokers s : Int)) := by
  cases hkx : KeyExchange.from_dict s body with
  | error m =>
      exfalso
      rw [show wg_api_v2_key_exchange s body = ([], .err 400 m, s) by
        simp [wg_api_v2_key_exchange, hkx]] at h500
      simp at h500
  | ok kx =>
      rcases hgb : get_best_worker s.workerMetrics kx.domain with ⟨b, df, cr⟩
      cases b with
      | none =>
          exfalso
          rw [wg_api_v2_of_none s body kx df cr hkx hgb] at h500
          simp at h500
      | some w =>
          have hv2 := wg_api_v2_of_some s body kx w df cr hkx hgb
          cases hlk : lookupA s.workerData (w, kx.domain) with
          | some wd =>
              exfalso
              rw [hv2] at h500
              simp [hlk] at h500
          | none =>
              refine ⟨kx, w, rfl, by rw [hgb], hlk, ?_, ?_⟩
              · rw [hv2]
                simp
              · have hst : (wg_api_v2_key_exchange s body).2.2.workerMetrics =
                    wmUpdate s.workerMetrics w kx.domain CONNECTED_PEERS_METRIC
                      (wmRead s.workerMetrics w kx.domain CONNECTED_PEERS_METRIC +
                        (onlineBrokers s : Int)) := by
                  rw [hv2]
                rw [hst]
                exact wmMetricValue_wmUpdate_self _ _ _ _ _

/-- C10 witness: the theorem at a state whose v2 request answers 500. -/
theorem c10_no_rollback_witness :
    ∃ kx w, KeyExchange.from_dict c8State reqBody = .ok kx ∧
      (get_best_worker c8State.workerMetrics kx.domain).1 = some w ∧
      lookupA c8State.workerData (w, kx.domain) = none ∧
      Ev.pub ("wireguard/" ++ kx.domain ++ "/all") kx.public_key ∈
        (wg_api_v2_key_exchange c8State reqBody).1 ∧
      wmMetricValue (wg_api_v2_key_exchange c8State reqBody).2.2.workerMetrics
          w kx.domain CONNECTED_PEERS_METRIC =
        some (wmRead c8State.workerMetrics w kx.domain CONNECTED_PEERS_METRIC +
          (onlineBrokers c8State : Int)) :=
  c10_no_rollback c8State reqBody (by rfl)

/-- Selection result when the candidate list is empty. -/
theorem gbw_of_bestCand_none {c : WMC} {d : String}
    (hb : bestCand (wmCandidates c d) = none) :
    get_best_worker c d = (none, 0, 0) := by
  simp [get_best_worker, hb]

/-- Selection result components when the fold returns a candidate. -/
theorem gbw_of_bestCand_some {c : WMC} {d w : String} {v : Int}
    (hb : bestCand (wmCandidates c d) = some (w, v)) :
    (get_best_worker c d).1 = some w ∧ (get_best_worker c d).2.2 = v := by
  simp [get_best_worker, hb]

/-- C1: over any store with distinct worker keys, `get_best_worker d`
returns a worker that is online and has a recorded `connected_peers` entry
for `d`, whose value (also returned as `current_peers`) is minimal among
all online workers with a recorded entry, ties resolved to the
lexicographically smallest worker-id; and the result is `(none, 0, 0)`
exactly when no online worker has a recorded entry for `d`. -/
theorem c1_get_best_worker (c : WMC) (d : String)
    (hnd : (c.map Prod.fst).Nodup) :
    (∀ w, (get_best_worker c d).1 = some w →
       wmIsOnline c w = true ∧
       ∃ v, wmMetricValue c w d CONNECTED_PEERS_METRIC = some v ∧
         (get_best_worker c d).2.2 = v ∧
         ∀ w' v', wmIsOnline c w' = true →
           wmMetricValue c w' d CONNECTED_PEERS_METRIC = some v' →
           v ≤ v' ∧ (v' = v → w ≤ w')) ∧
    ((∀ w, ¬(wmIsOnline c w = true ∧
        (wmMetricValue c w d CONNECTED_PEERS_METRIC).isSome = true)) ↔
      get_best_worker c d = (none, 0, 0)) := by
  constructor
  · intro w hw
    cases hb : bestCand (wmCandidates c d) with
    | none =>
        rw [gbw_of_bestCand_none hb] at hw
        simp at hw
    | some e =>
        obtain ⟨w0, v0⟩ := e
        obtain ⟨h1, h2⟩ := gbw_of_bestCand_some hb
        rw [h1] at hw
        have hw0 : w0 = w := by simpa using hw
        subst hw0
        have hmem := bestCand_mem hb
        obtain ⟨honl, hval⟩ := mem_wmCandidates_elim hnd hmem
        refine ⟨honl, v0, hval, h2, ?_⟩
        intro w' v' ho' hv'
        have hmem' := mem_wmCandidates_intro ho' hv'
        have hle := bestCand_le hb _ hmem'
        simp only [candKey, Prod.Lex.le_iff] at hle
        rcases hle with hlt | ⟨heq, hww⟩
        · refine ⟨le_of_lt hlt, ?_⟩
          intro hv
          rw [hv] at hlt
          exact absurd hlt (lt_irrefl v0)
        · exact ⟨le_of_eq heq, fun _ => hww⟩
  · constructor
    · intro hno
      have hcand : wmCandidates c d = [] := by
        cases hc : wmCandidates c d with
        | nil => rfl
        | cons e cs =>
            exfalso
            obtain ⟨w0, v0⟩ := e
            have hmem : (w0, v0) ∈ wmCandidates c d := by
              rw [hc]
              exact List.mem_cons_self _ _
            obtain ⟨h1, h2⟩ := mem_wmCandidates_elim hnd hmem
            exact hno w0 ⟨h1, by rw [h2]; rfl⟩
      exact gbw_of_bestCand_none (by rw [hcand]; rfl)
    · intro heq w hcon
      obtain ⟨h1, h2⟩ := hcon
      obtain ⟨v, hv⟩ := Option.isSome_iff_exists.mp h2
      have hmem := mem_wmCandidates_intro h1 hv
      cases hb : bestCand (wmCandidates c d) with
      | none =>
          have hnil := (bestCand_eq_none_iff _).mp hb
          rw [hnil] at hmem
          simp at hmem
      | some e =>
          obtain ⟨w0, v0⟩ := e
          obtain ⟨h1', h2'⟩ := gbw_of_bestCand_some hb
          rw [heq] at h1'
          simp at h1'

/-- A store with a tie between `gw1` and `gw2` at 10 peers and a lower
count on the offline `gw0`. -/
def c1Store : WMC :=
  [("gw2", { online := true, domainMetrics := [("ffda", [("connected_peers", 10)])] }),
   ("gw1", { online := true, domainMetrics := [("ffda", [("connected_peers", 10)])] }),
   ("gw0", { online := false, domainMetrics := [("ffda", [("connected_peers", 1)])] })]

/-- C1 witness: the theorem at a concrete store (tie resolved to `gw1`,
the offline lower count ignored). -/
theorem c1_get_best_worker_witness :
    ((c1Store.map Prod.fst).Nodup) ∧
    ((∀ w, (get_best_worker c1Store "ffda").1 = some w →
       wmIsOnline c1Store w = true ∧
       ∃ v, wmMetricValue c1Store w "ffda" CONNECTED_PEERS_METRIC = some v ∧
         (get_best_worker c1Store "ffda").2.2 = v ∧
         ∀ w' v', wmIsOnline c1Store w' = true →
           wmMetricValue c1Store w' "ffda" CONNECTED_PEERS_METRIC = some v' →
           v ≤ v' ∧ (v' = v → w ≤ w')) ∧
    ((∀ w, ¬(wmIsOnline c1Store w = true ∧
        (wmMetricValue c1Store w "ffda" CONNECTED_PEERS_METRIC).isSome = true)) ↔
      get_best_worker c1Store "ffda" = (none, 0, 0))) :=
  ⟨by decide, c1_get_best_worker c1Store "ffda" (by decide)⟩
